import Mathlib

set_option linter.unusedVariables false

/-! Shallow embedding of the task-management API (Users and Tasks), in its
in-memory fallback store mode, together with its validation layer and error
normalization, translated from `src/controllers/userController.ts`,
`src/controllers/taskController.ts`, `src/utils/errorHandler.ts`,
`src/models/User.ts` and `src/models/Task.ts`.

Conventions of the embedding: JavaScript `Date` timestamps are `Nat` values
passed explicitly as `now`; freshly generated ObjectIds are `String` values
passed explicitly as `newId`; an absent (`undefined`) field of a partial
payload is `none`; a thrown error is the `.error` case of `Except`; the
process-wide in-memory collections are an explicit `DB` record threaded
through every operation. -/

/-- A single apostrophe character, used inside source message templates. -/
def apos : String := (Char.ofNat 39).toString

/-- The `ErrorType` enum of `errorHandler.ts`. -/
inductive ErrorType
  | VALIDATION
  | NOT_FOUND
  | DUPLICATE
  | SERVER
  | BAD_REQUEST
deriving Repr, DecidableEq

/-- The string value each `ErrorType` member carries in the source enum. -/
def ErrorType.value : ErrorType → String
  | .VALIDATION => "ValidationError"
  | .NOT_FOUND => "NotFoundError"
  | .DUPLICATE => "DuplicateError"
  | .SERVER => "ServerError"
  | .BAD_REQUEST => "BadRequestError"

/-- A JavaScript error value as observed by `handleError`: the fields the
source reads (`name`, `message`, `code`, `keyValue`, `details`) plus flags
standing for the two `instanceof` tests against Mongoose error classes
(and, for a Mongoose validation error, its collected sub-messages). -/
structure JsError where
  name : String := "Error"
  message : String := ""
  code : Option Nat := none
  keyValue : Option (String × String) := none
  details : Option (List String) := none
  isMongooseValidationError : Bool := false
  mongooseMessages : List String := []
  isMongooseCastError : Bool := false
deriving Repr, DecidableEq

/-- The `AppError.notFound` factory of `errorHandler.ts`. -/
def AppError.notFound (message : String := "Recurso no encontrado") : JsError :=
  { name := ErrorType.NOT_FOUND.value, message := message }

/-- The `AppError.badRequest` factory of `errorHandler.ts`. -/
def AppError.badRequest (message : String := "Solicitud incorrecta") : JsError :=
  { name := ErrorType.BAD_REQUEST.value, message := message }

/-- The `AppError.validation` factory of `errorHandler.ts`. -/
def AppError.validation (message : String := "Error de validación")
    (details : List String := []) : JsError :=
  { name := ErrorType.VALIDATION.value, message := message, details := some details }

/-- The shape of the `details` field of an `ApiError`: a list of violation
messages, a duplicate-key key/value pair, or a single message string. -/
inductive ErrDetails
  | strs (l : List String)
  | kv (key value : String)
  | str (s : String)
deriving Repr, DecidableEq

/-- The `ApiError` envelope of `errorHandler.ts`. -/
structure ApiError where
  type : ErrorType
  message : String
  details : Option ErrDetails := none
  status : Nat
deriving Repr, DecidableEq

/-- The `handleError` function of `errorHandler.ts`: the if-chain that maps
any raised error value to exactly one `ApiError` envelope. -/
def handleError (e : JsError) : ApiError :=
  if e.isMongooseValidationError then
    { type := .VALIDATION, message := "Error de validación",
      details := some (.strs e.mongooseMessages), status := 400 }
  else if e.code = some 11000 then
    { type := .DUPLICATE, message := "Registro duplicado",
      details := e.keyValue.map (fun p => ErrDetails.kv p.1 p.2), status := 409 }
  else if e.isMongooseCastError then
    { type := .BAD_REQUEST, message := "ID no válido",
      details := some (.str e.message), status := 400 }
  else if e.name = ErrorType.NOT_FOUND.value then
    { type := .NOT_FOUND,
      message := if e.message = "" then "Recurso no encontrado" else e.message,
      status := 404 }
  else if e.name = ErrorType.BAD_REQUEST.value then
    { type := .BAD_REQUEST,
      message := if e.message = "" then "Solicitud incorrecta" else e.message,
      status := 400 }
  else if e.name = ErrorType.VALIDATION.value then
    { type := .VALIDATION,
      message := if e.message = "" then "Error de validación" else e.message,
      details := some (.strs (e.details.getD [])), status := 400 }
  else
    { type := .SERVER, message := "Error interno del servidor",
      details := some (.str e.message), status := 500 }

/-- A stored User record, as built by the in-memory branch of `createUser`
(`models/User.ts` shape with Mongoose defaults made explicit). -/
structure UserRec where
  _id : String
  name : String
  email : String
  age : Option Rat := none
  role : String
  active : Bool
  createdAt : Nat
  updatedAt : Nat
deriving Repr, DecidableEq

/-- A partial User payload (`Partial IUser` as the controllers receive it):
each field is absent (`undefined`) or present. -/
structure UserPayload where
  name : Option String := none
  email : Option String := none
  age : Option Rat := none
  role : Option String := none
  active : Option Bool := none
deriving Repr, DecidableEq

/-- A stored Task record (`models/Task.ts` shape); `user` holds the
referenced User id. -/
structure TaskRec where
  _id : String
  title : String
  description : String
  status : String
  user : String
  createdAt : Nat
  updatedAt : Nat
deriving Repr, DecidableEq

/-- A partial Task payload (`Partial ITask` as the controllers receive it). -/
structure TaskPayload where
  title : Option String := none
  description : Option String := none
  status : Option String := none
  user : Option String := none
deriving Repr, DecidableEq

/-- The two process-wide in-memory collections of `config/database.ts`
(`inMemoryUsers` and `inMemoryTasks`), made an explicit state record. -/
structure DB where
  users : List UserRec := []
  tasks : List TaskRec := []
deriving Repr, DecidableEq

deriving instance DecidableEq for Except

/-- The outcome of one controller operation: the returned value or thrown
error, together with the in-memory state after the operation. -/
structure OpResult (α : Type) where
  out : Except JsError α
  db : DB
deriving Repr, DecidableEq

/-- The `user` field of a returned Task after the simulated populate: the
substituted User record, the raw unresolved id, or `undefined`. -/
inductive PopUser
  | resolved (u : UserRec)
  | raw (id : String)
  | undefinedRef
deriving Repr, DecidableEq

/-- A Task as returned by the task controller after the simulated populate. -/
structure PopulatedTask where
  _id : String
  title : String
  description : String
  status : String
  user : PopUser
  createdAt : Nat
  updatedAt : Nat
deriving Repr, DecidableEq

/-- The spread `... task, user := pu` building a populated Task. -/
def TaskRec.withUser (t : TaskRec) (pu : PopUser) : PopulatedTask :=
  { _id := t._id, title := t.title, description := t.description,
    status := t.status, user := pu, createdAt := t.createdAt,
    updatedAt := t.updatedAt }

/-- Character class `[a-zA-Z]` of the email pattern. -/
def isAlphaChar (c : Char) : Bool :=
  ('a' ≤ c && c ≤ 'z') || ('A' ≤ c && c ≤ 'Z')

/-- Character class `[0-9]` of the email pattern. -/
def isDigitChar (c : Char) : Bool :=
  '0' ≤ c && c ≤ '9'

/-- Character class `[a-zA-Z0-9._%+-]` (the local part of the pattern). -/
def isLocalChar (c : Char) : Bool :=
  isAlphaChar c || isDigitChar c || c == '.' || c == '_' || c == '%' ||
    c == '+' || c == '-'

/-- Character class `[a-zA-Z0-9.-]` (the domain part of the pattern). -/
def isDomainChar (c : Char) : Bool :=
  isAlphaChar c || isDigitChar c || c == '.' || c == '-'

/-- Match for the tail `[a-zA-Z]` repeated at least twice, to the end. -/
def tldMatch (l : List Char) : Bool :=
  decide (2 ≤ l.length) && l.all isAlphaChar

/-- Match for a dot followed by a top-level-domain tail, allowing further
domain characters before the chosen dot. -/
def dotTail : List Char → Bool
  | [] => false
  | c :: rest => (c == '.' && tldMatch rest) || (isDomainChar c && dotTail rest)

/-- Match for the domain part of the pattern, one or more domain characters
then a dot then the alphabetic tail. -/
def domainMatch : List Char → Bool
  | [] => false
  | c :: rest => isDomainChar c && dotTail rest

/-- Match, after at least one local character, for the rest of the local
part, the at sign and the domain part. -/
def emailAfter : List Char → Bool
  | [] => false
  | c :: rest => (c == '@' && domainMatch rest) || (isLocalChar c && emailAfter rest)

/-- Match for the whole email pattern starting with a non-empty local part. -/
def emailChars : List Char → Bool
  | [] => false
  | c :: rest => isLocalChar c && emailAfter rest

/-- The test of the email regular expression of `validateUserData`
(also the `match` pattern of the User schema). -/
def emailRegexTest (s : String) : Bool :=
  emailChars s.data

/-- Characters of a string with leading and trailing whitespace removed. -/
def trimChars (l : List Char) : List Char :=
  ((l.dropWhile Char.isWhitespace).reverse.dropWhile Char.isWhitespace).reverse

/-- JavaScript `trim()`: the string with whitespace stripped at both ends. -/
def jsTrim (s : String) : String := String.mk (trimChars s.data)

/-- Lowercase normalization of a string, character by character.
Modelled from the spec: the case normalization to lowercase that the spec
ascribes to stored emails (the schema option `lowercase: true`, applied
only by the durable store, which is outside the embedded fallback code). -/
def lowerStr (s : String) : String := String.mk (s.data.map Char.toLower)

/-- The name-field block of `validateUserData`: required (JS-falsy check,
so an empty string also counts as missing) and trimmed length in 2..50.
The payload field is typed, so the string-type branch cannot fire. -/
def nameViolations : Option String → List String
  | none => ["El nombre es obligatorio"]
  | some n =>
    if n = "" then ["El nombre es obligatorio"]
    else
      (if (jsTrim n).length < 2 then ["El nombre debe tener al menos 2 caracteres"] else []) ++
      (if (jsTrim n).length > 50 then ["El nombre no puede tener más de 50 caracteres"] else [])

/-- The email-field block of `validateUserData`: required (JS-falsy check)
and matching the email pattern. -/
def emailViolations : Option String → List String
  | none => ["El email es obligatorio"]
  | some e =>
    if e = "" then ["El email es obligatorio"]
    else if !emailRegexTest e then ["El formato del email no es válido"] else []

/-- The age-field block of `validateUserData`: optional, but when present
an integer in 0..120. The field is typed as a number, so the number-type
branch cannot fire; `Number.isInteger` is the rational integrality test. -/
def ageViolations : Option Rat → List String
  | none => []
  | some a =>
    (if !a.isInt then ["La edad debe ser un número entero"] else []) ++
    (if a < 0 then ["La edad no puede ser negativa"] else []) ++
    (if 120 < a then ["La edad no puede ser mayor a 120 años"] else [])

/-- The role-field block of `validateUserData`: optional, but when present
one of the valid roles. -/
def roleViolations : Option String → List String
  | none => []
  | some r =>
    let validRoles := ["user", "admin", "editor"]
    if !validRoles.contains r then
      ["El rol " ++ apos ++ r ++ apos ++ " no es válido. Roles válidos: " ++
        String.intercalate ", " validRoles]
    else []

/-- The active-field block of `validateUserData`: optional, and the field
is typed as a boolean, so the boolean-type check cannot fire. -/
def activeViolations : Option Bool → List String
  | _ => []

/-- The sequentially accumulated `errors` array of `validateUserData`,
one block per field in source order. -/
def userViolations (userData : UserPayload) : List String :=
  let errors : List String := []
  let errors := errors ++ nameViolations userData.name
  let errors := errors ++ emailViolations userData.email
  let errors := errors ++ ageViolations userData.age
  let errors := errors ++ roleViolations userData.role
  let errors := errors ++ activeViolations userData.active
  errors

/-- The `validateUserData` function of `userController.ts`: collect every
violation, then throw a single validation error when any was found. -/
def validateUserData (userData : UserPayload) : Except JsError Unit :=
  let errors := userViolations userData
  if errors.length > 0 then
    .error (AppError.validation "Error de validación" errors)
  else
    .ok ()

/-- The `Object.keys(userData).length > 0` test of `updateUser`, negated:
true when every field of the partial payload is absent. -/
def UserPayload.isEmpty (p : UserPayload) : Bool :=
  p.name.isNone && p.email.isNone && p.age.isNone && p.role.isNone && p.active.isNone

/-- JavaScript truthiness of an optional string field: present and
non-empty. -/
def jsTruthy : Option String → Bool
  | none => false
  | some s => !(s == "")

/-- JavaScript `a || d` on an optional string: the value when present and
non-empty, the default otherwise. -/
def jsOrStr (o : Option String) (d : String) : String :=
  match o with
  | none => d
  | some s => if s == "" then d else s

/-- JavaScript template-literal rendering of a possibly-undefined id. -/
def optToStr : Option String → String
  | none => "undefined"
  | some s => s

/-- The source's `findIndex` followed by indexing, combined: the first
index and element satisfying the predicate. -/
def findIndexed (p : α → Bool) : List α → Option (Nat × α)
  | [] => none
  | a :: as =>
    if p a then some (0, a)
    else (findIndexed p as).map (fun q => (q.1 + 1, q.2))

/-- The object-spread merge of a stored user, a partial payload and a
refreshed `updatedAt`, as in `updateUser`. -/
def applyUserPatch (u : UserRec) (p : UserPayload) (now : Nat) : UserRec :=
  { _id := u._id
    name := p.name.getD u.name
    email := p.email.getD u.email
    age := match p.age with | some a => some a | none => u.age
    role := p.role.getD u.role
    active := p.active.getD u.active
    createdAt := u.createdAt
    updatedAt := now }

/-- The object-spread merge of a stored task, a partial payload and a
refreshed `updatedAt`, as in `updateTask`. -/
def applyTaskPatch (t : TaskRec) (p : TaskPayload) (now : Nat) : TaskRec :=
  { _id := t._id
    title := p.title.getD t.title
    description := p.description.getD t.description
    status := p.status.getD t.status
    user := p.user.getD t.user
    createdAt := t.createdAt
    updatedAt := now }

/-- The simulated populate with fallback to the raw id, as in
`getAllTasks` and `getTaskById` (`users.find(...) || task.user`). -/
def popLookupRaw (users : List UserRec) (uid : String) : PopUser :=
  match users.find? (fun u => u._id == uid) with
  | some u => .resolved u
  | none => .raw uid

/-- The simulated populate with no fallback, as in `createTask`,
`updateTask`, `updateTaskStatus` and `moveTaskToUser`: an unresolved
reference leaves the user field undefined. -/
def popLookupUndefined (users : List UserRec) (uid : String) : PopUser :=
  match users.find? (fun u => u._id == uid) with
  | some u => .resolved u
  | none => .undefinedRef

/-- In-memory branch of `userController.getUserById`. -/
def getUserById (db : DB) (id : String) : OpResult UserRec :=
  match db.users.find? (fun u => u._id == id) with
  | some u => ⟨.ok u, db⟩
  | none => ⟨.error (AppError.notFound s!"Usuario con ID {id} no encontrado"), db⟩

/-- In-memory branch of `userController.createUser`; `newId` stands for
the freshly generated ObjectId and `now` for `new Date()`. -/
def createUser (db : DB) (userData : UserPayload) (newId : String) (now : Nat) :
    OpResult UserRec :=
  match validateUserData userData with
  | .error e => ⟨.error e, db⟩
  | .ok _ =>
    if db.users.any (fun u => some u.email == userData.email) then
      ⟨.error { name := "Error", message := "Email ya registrado",
                code := some 11000,
                keyValue := some ("email", userData.email.getD "") }, db⟩
    else
      let newUser : UserRec :=
        { _id := newId
          name := userData.name.getD ""
          email := userData.email.getD ""
          age := userData.age
          role := userData.role.getD "user"
          active := userData.active.getD true
          createdAt := now
          updatedAt := now }
      ⟨.ok newUser, { db with users := db.users ++ [newUser] }⟩

/-- In-memory branch of `userController.updateUser`. -/
def updateUser (db : DB) (id : String) (userData : UserPayload) (now : Nat) :
    OpResult UserRec :=
  match (if !userData.isEmpty then validateUserData userData else .ok ()) with
  | .error e => ⟨.error e, db⟩
  | .ok _ =>
    match findIndexed (fun u => u._id == id) db.users with
    | none => ⟨.error (AppError.notFound s!"Usuario con ID {id} no encontrado"), db⟩
    | some (userIndex, stored) =>
      if jsTruthy userData.email &&
          db.users.enum.any
            (fun q => (some q.2.email == userData.email) && (q.1 != userIndex)) then
        ⟨.error { name := "Error", message := "Email ya registrado",
                  code := some 11000,
                  keyValue := some ("email", userData.email.getD "") }, db⟩
      else
        ⟨.ok (applyUserPatch stored userData now),
         { db with users := db.users.set userIndex (applyUserPatch stored userData now) }⟩

/-- In-memory branch of `userController.deleteUser`. -/
def deleteUser (db : DB) (id : String) : OpResult String :=
  match findIndexed (fun u => u._id == id) db.users with
  | none => ⟨.error (AppError.notFound s!"Usuario con ID {id} no encontrado"), db⟩
  | some _ =>
    ⟨.ok s!"Usuario con ID {id} eliminado correctamente",
     { db with users := db.users.filter (fun u => !(u._id == id)) }⟩

/-- The `TaskStatus` enum values of `models/Task.ts`. -/
def taskStatusValues : List String := ["pending", "in_progress", "completed"]

/-- In-memory branch of `taskController.getTaskById`. -/
def getTaskById (db : DB) (id : String) : OpResult PopulatedTask :=
  match db.tasks.find? (fun t => t._id == id) with
  | none => ⟨.error (AppError.notFound s!"Tarea con ID {id} no encontrada"), db⟩
  | some task => ⟨.ok (task.withUser (popLookupRaw db.users task.user)), db⟩

/-- In-memory branch of `taskController.createTask`. -/
def createTask (db : DB) (taskData : TaskPayload) (newId : String) (now : Nat) :
    OpResult PopulatedTask :=
  if !(db.users.any (fun u => some u._id == taskData.user)) then
    ⟨.error (AppError.badRequest
      ("Usuario con ID " ++ optToStr taskData.user ++ " no existe")), db⟩
  else
    let userId := taskData.user.getD ""
    let newTask : TaskRec :=
      { _id := newId
        title := jsOrStr taskData.title ""
        description := jsOrStr taskData.description ""
        status := jsOrStr taskData.status "pending"
        user := userId
        createdAt := now
        updatedAt := now }
    ⟨.ok (newTask.withUser (popLookupUndefined db.users userId)),
     { db with tasks := db.tasks ++ [newTask] }⟩

/-- In-memory branch of `taskController.updateTask`: task lookup first,
then the user-existence probe only when the payload changes `user`. -/
def updateTask (db : DB) (id : String) (taskData : TaskPayload) (now : Nat) :
    OpResult PopulatedTask :=
  match findIndexed (fun t => t._id == id) db.tasks with
  | none => ⟨.error (AppError.notFound s!"Tarea con ID {id} no encontrada"), db⟩
  | some (taskIndex, stored) =>
    if jsTruthy taskData.user &&
        !(db.users.any (fun u => some u._id == taskData.user)) then
      ⟨.error (AppError.badRequest
        ("Usuario con ID " ++ optToStr taskData.user ++ " no existe")), db⟩
    else
      let updatedTask := applyTaskPatch stored taskData now
      ⟨.ok (updatedTask.withUser (popLookupUndefined db.users updatedTask.user)),
       { db with tasks := db.tasks.set taskIndex updatedTask }⟩

/-- In-memory branch of `taskController.updateTaskStatus`: the status value
is checked against the enum before any store access. -/
def updateTaskStatus (db : DB) (id : String) (status : String) (now : Nat) :
    OpResult PopulatedTask :=
  if !(taskStatusValues.contains status) then
    ⟨.error (AppError.badRequest
      ("Estado " ++ apos ++ status ++ apos ++ " no válido")), db⟩
  else
    match findIndexed (fun t => t._id == id) db.tasks with
    | none => ⟨.error (AppError.notFound s!"Tarea con ID {id} no encontrada"), db⟩
    | some (taskIndex, stored) =>
      let updatedTask : TaskRec := { stored with status := status, updatedAt := now }
      ⟨.ok (updatedTask.withUser (popLookupUndefined db.users updatedTask.user)),
       { db with tasks := db.tasks.set taskIndex updatedTask }⟩

/-- In-memory branch of `taskController.moveTaskToUser`: the user-existence
probe runs before the task lookup. -/
def moveTaskToUser (db : DB) (id : String) (userId : String) (now : Nat) :
    OpResult PopulatedTask :=
  if !(db.users.any (fun u => u._id == userId)) then
    ⟨.error (AppError.badRequest ("Usuario con ID " ++ userId ++ " no existe")), db⟩
  else
    match findIndexed (fun t => t._id == id) db.tasks with
    | none => ⟨.error (AppError.notFound s!"Tarea con ID {id} no encontrada"), db⟩
    | some (taskIndex, stored) =>
      let updatedTask : TaskRec := { stored with user := userId, updatedAt := now }
      ⟨.ok (updatedTask.withUser (popLookupUndefined db.users userId)),
       { db with tasks := db.tasks.set taskIndex updatedTask }⟩

/-- The email-uniqueness invariant on the in-memory store: no two stored
Users share an email (exact string equality). -/
def emailsDistinct (db : DB) : Prop :=
  (db.users.map (fun u => u.email)).Nodup

example : emailRegexTest "ann@example.com" = true := by decide
example : emailRegexTest "a@b.co" = true := by decide
example : emailRegexTest "a@b.c" = false := by decide
example : emailRegexTest "ab.co" = false := by decide
example : emailRegexTest "a@b@c.co" = false := by decide
example : emailRegexTest "a@sub.dom-x.org" = true := by decide

/-- True when the operation returned a value rather than throwing. -/
def opSucceeded : Except JsError α → Bool
  | .ok _ => true
  | .error _ => false

/-! Helper lemmas about lists and the embedded operations, shared by the
claim theorems below. -/

lemma find?_append_none {p : α → Bool} {l₁ : List α} (l₂ : List α)
    (h : l₁.find? p = none) : (l₁ ++ l₂).find? p = l₂.find? p := by
  induction l₁ with
  | nil => rfl
  | cons a as ih =>
    simp only [List.find?] at h
    cases ha : p a with
    | true => rw [ha] at h; simp at h
    | false =>
      rw [ha] at h
      simp only [List.cons_append, List.find?, ha]
      exact ih h

lemma findIndexed_getElem? {p : α → Bool} {l : List α} {i : Nat} {a : α}
    (h : findIndexed p l = some (i, a)) : l[i]? = some a ∧ p a = true := by
  induction l generalizing i with
  | nil => simp [findIndexed] at h
  | cons x xs ih =>
    by_cases hx : p x
    · simp [findIndexed, hx] at h
      obtain ⟨hi, ha⟩ := h
      subst hi; subst ha
      exact ⟨by simp, hx⟩
    · simp only [findIndexed, if_neg hx] at h
      rcases hm : findIndexed p xs with _ | ⟨j, b⟩
      · rw [hm] at h; simp at h
      · rw [hm] at h
        obtain ⟨hi, hb⟩ := by simpa using h
        subst hi; subst hb
        simpa using ih hm

lemma find?_of_findIndexed {p : α → Bool} {l : List α} {i : Nat} {a : α}
    (h : findIndexed p l = some (i, a)) : l.find? p = some a := by
  induction l generalizing i with
  | nil => simp [findIndexed] at h
  | cons x xs ih =>
    by_cases hx : p x
    · simp [findIndexed, hx] at h
      obtain ⟨hi, ha⟩ := h
      subst ha
      simp [List.find?, hx]
    · simp only [findIndexed, if_neg hx] at h
      rcases hm : findIndexed p xs with _ | ⟨j, b⟩
      · rw [hm] at h; simp at h
      · rw [hm] at h
        obtain ⟨hi, hb⟩ := by simpa using h
        subst hb
        simp only [List.find?, hx]
        exact ih hm

lemma map_set_self {f : α → β} {l : List α} {i : Nat} {a : α}
    (h : l[i]? = some a) : (l.map f).set i (f a) = l.map f := by
  induction l generalizing i with
  | nil => simp at h
  | cons x xs ih =>
    cases i with
    | zero =>
      simp at h
      subst h
      simp
    | succ n =>
      simp at h
      simpa using ih h

lemma nodup_set_of_ne {l : List β} {i : Nat} {e : β}
    (hl : l.Nodup) (h : ∀ j b, l[j]? = some b → j ≠ i → b ≠ e) :
    (l.set i e).Nodup := by
  induction l generalizing i with
  | nil => simp
  | cons x xs ih =>
    cases i with
    | zero =>
      rw [List.nodup_cons] at hl
      rw [List.set_cons_zero, List.nodup_cons]
      refine ⟨?_, hl.2⟩
      intro hmem
      obtain ⟨j, hj, hjv⟩ := List.mem_iff_getElem.mp hmem
      exact h (j + 1) e (by simp [hjv.symm ▸ List.getElem?_eq_getElem hj]) (by simp) rfl
    | succ n =>
      rw [List.nodup_cons] at hl
      rw [List.set_cons_succ, List.nodup_cons]
      refine ⟨?_, ih hl.2 ?_⟩
      · intro hmem
        rcases List.mem_or_eq_of_mem_set hmem with hx | hx
        · exact hl.1 hx
        · exact h 0 x (by simp) (by simp) hx
      · intro j b hjb hji
        exact h (j + 1) b (by simpa using hjb) (by simpa using hji)

lemma userViolations_decomp (p : UserPayload) :
    userViolations p =
      nameViolations p.name ++ emailViolations p.email ++ ageViolations p.age ++
        roleViolations p.role ++ activeViolations p.active := by
  simp [userViolations]

lemma validateUserData_ok_iff {p : UserPayload} :
    validateUserData p = .ok () ↔ userViolations p = [] := by
  unfold validateUserData
  constructor
  · intro h
    by_contra hne
    simp [List.length_pos.mpr hne] at h
  · intro h
    simp [h]

lemma email_of_validate_ok {p : UserPayload} (h : validateUserData p = .ok ()) :
    ∃ e, p.email = some e ∧ e ≠ "" ∧ emailRegexTest e = true := by
  have hv : userViolations p = [] := validateUserData_ok_iff.mp h
  have hx : nameViolations p.name ++ emailViolations p.email ++ ageViolations p.age ++
      roleViolations p.role ++ activeViolations p.active = [] := by
    rw [← userViolations_decomp p]; exact hv
  simp only [List.append_eq_nil] at hx
  have hemail : emailViolations p.email = [] := hx.1.1.1.2
  cases hp : p.email with
  | none => rw [hp] at hemail; simp [emailViolations] at hemail
  | some e =>
    rw [hp] at hemail
    simp only [emailViolations] at hemail
    split_ifs at hemail with h1 h2
    exact ⟨e, rfl, h1, by simpa using h2⟩

lemma createUser_ok_state {db : DB} {p : UserPayload} {newId : String} {now : Nat}
    {r : UserRec} {db' : DB}
    (h : createUser db p newId now = ⟨.ok r, db'⟩) :
    validateUserData p = .ok () ∧
    db.users.any (fun u => some u.email == p.email) = false ∧
    r = { _id := newId, name := p.name.getD "", email := p.email.getD "",
          age := p.age, role := p.role.getD "user", active := p.active.getD true,
          createdAt := now, updatedAt := now } ∧
    db' = { db with users := db.users ++ [r] } := by
  unfold createUser at h
  split at h
  · simp at h
  · rename_i u hval
    split at h
    · simp at h
    · rename_i hany
      simp at h
      obtain ⟨hr, hdb⟩ := h
      refine ⟨?_, by simpa using hany, hr.symm, ?_⟩
      · cases u; exact hval
      · rw [← hdb, hr]

lemma updateUser_ok_state {db : DB} {id : String} {p : UserPayload} {now : Nat}
    {r : UserRec} {db' : DB}
    (h : updateUser db id p now = ⟨.ok r, db'⟩) :
    ∃ i stored,
      findIndexed (fun u => u._id == id) db.users = some (i, stored) ∧
      r = applyUserPatch stored p now ∧
      db' = { db with users := db.users.set i r } ∧
      (p.isEmpty = false → validateUserData p = .ok ()) ∧
      (jsTruthy p.email = true →
        db.users.enum.any
          (fun q => (some q.2.email == p.email) && (q.1 != i)) = false) := by
  unfold updateUser at h
  split at h
  · simp at h
  · rename_i u hgate
    split at h
    · simp at h
    · rename_i i stored hfind
      split at h
      · simp at h
      · rename_i hdup
        simp at h
        obtain ⟨hr, hdb⟩ := h
        refine ⟨i, stored, hfind, hr.symm, by rw [← hdb, hr], ?_, ?_⟩
        · intro hne
          cases u
          rw [hne] at hgate
          simpa using hgate
        · intro htr
          rw [htr] at hdup
          simpa using hdup

/-! Concrete sample data used by witnesses and counterexamples. -/

/-- A sample stored user. -/
def uAnn : UserRec :=
  { _id := "u1", name := "Ann Lee", email := "ann@example.com",
    age := none, role := "user", active := true, createdAt := 0, updatedAt := 0 }

/-- A sample stored task referencing `uAnn`. -/
def tReport : TaskRec :=
  { _id := "t1", title := "Write report", description := "",
    status := "pending", user := "u1", createdAt := 0, updatedAt := 0 }

/-- A sample store holding one user and one task. -/
def dbW : DB := { users := [uAnn], tasks := [tReport] }

/-- A task whose `user` reference dangles (no such user is stored). -/
def tGhost : TaskRec :=
  { _id := "t9", title := "Orphan", description := "",
    status := "pending", user := "ghost", createdAt := 0, updatedAt := 0 }

/-- A store holding only the dangling task. -/
def dbGhost : DB := { users := [], tasks := [tGhost] }

/-- C3: a `createTask` call whose `user` id resolves to no stored User
fails with a BadRequest error naming the missing id, and the task
collection (indeed the whole store) is left unchanged. -/
theorem c3_createTask_missing_user (db : DB) (taskData : TaskPayload)
    (newId : String) (now : Nat)
    (h : db.users.any (fun u => some u._id == taskData.user) = false) :
    createTask db taskData newId now =
      ⟨.error (AppError.badRequest
        ("Usuario con ID " ++ optToStr taskData.user ++ " no existe")), db⟩ := by
  simp [createTask, h]

/-- Witness for C3 at a concrete store and payload. -/
theorem c3_createTask_missing_user_witness :
    createTask {} { title := some "T", user := some "nobody" } "t5" 3 =
      ⟨.error (AppError.badRequest "Usuario con ID nobody no existe"), {}⟩ := by
  have := c3_createTask_missing_user {} { title := some "T", user := some "nobody" }
    "t5" 3 (by decide)
  simpa [optToStr] using this

/-- C6: `updateTaskStatus` checks the status against the three-valued enum
before any store access: an invalid value fails with a BadRequest error
naming the value and leaves the store unchanged; a valid value on an
existing task succeeds, the returned task carries the new status, and its
`updatedAt` is refreshed to the current time. -/
theorem c6_updateTaskStatus_validates (db : DB) (id status : String) (now : Nat) :
    (taskStatusValues.contains status = false →
      updateTaskStatus db id status now =
        ⟨.error (AppError.badRequest
          ("Estado " ++ apos ++ status ++ apos ++ " no válido")), db⟩)
    ∧ (taskStatusValues.contains status = true →
       ∀ i stored, findIndexed (fun t => t._id == id) db.tasks = some (i, stored) →
        updateTaskStatus db id status now =
          ⟨.ok (TaskRec.withUser { stored with status := status, updatedAt := now }
                  (popLookupUndefined db.users stored.user)),
           { db with tasks := db.tasks.set i { stored with status := status, updatedAt := now } }⟩) := by
  constructor
  · intro h
    unfold updateTaskStatus
    rw [h]
    rfl
  · intro h i stored hfind
    unfold updateTaskStatus
    rw [h, hfind]
    rfl

/-- Witness for C6: the literal spec scenario, rejected status value
first, then a successful `completed` update advancing `updatedAt`. -/
theorem c6_updateTaskStatus_validates_witness :
    updateTaskStatus dbW "t1" "bogus" 7 =
      ⟨.error (AppError.badRequest
        ("Estado " ++ apos ++ "bogus" ++ apos ++ " no válido")), dbW⟩
    ∧ updateTaskStatus dbW "t1" "completed" 7 =
      ⟨.ok (TaskRec.withUser { tReport with status := "completed", updatedAt := 7 }
              (popLookupUndefined dbW.users tReport.user)),
       { dbW with tasks := dbW.tasks.set 0 { tReport with status := "completed", updatedAt := 7 } }⟩ := by
  constructor
  · exact (c6_updateTaskStatus_validates dbW "t1" "bogus" 7).1 (by decide)
  · exact (c6_updateTaskStatus_validates dbW "t1" "completed" 7).2 (by decide)
      0 tReport (by decide)

/-- C8: `validateUserData` never stops at the first violation: the
collected list decomposes into the five independent per-field rule
results concatenated in order, and the outcome is success exactly when
that list is empty, a single validation error carrying the whole ordered
list otherwise. -/
theorem c8_validator_collects_all (p : UserPayload) :
    userViolations p =
      nameViolations p.name ++ emailViolations p.email ++ ageViolations p.age ++
        roleViolations p.role ++ activeViolations p.active
    ∧ (userViolations p = [] → validateUserData p = .ok ())
    ∧ (userViolations p ≠ [] →
        validateUserData p =
          .error (AppError.validation "Error de validación" (userViolations p))) := by
  refine ⟨userViolations_decomp p, ?_, ?_⟩
  · intro h
    exact validateUserData_ok_iff.mpr h
  · intro h
    unfold validateUserData
    simp [List.length_pos.mpr h]

/-- Witness for C8 at a payload violating two independent rules at once. -/
theorem c8_validator_collects_all_witness :
    userViolations { name := some "A", email := some "bad", age := some 130 } =
      ["El nombre debe tener al menos 2 caracteres",
       "El formato del email no es válido",
       "La edad no puede ser mayor a 120 años"]
    ∧ validateUserData { name := some "A", email := some "bad", age := some 130 } =
      .error (AppError.validation "Error de validación"
        ["El nombre debe tener al menos 2 caracteres",
         "El formato del email no es válido",
         "La edad no puede ser mayor a 120 años"]) := by
  constructor
  · decide
  · have := (c8_validator_collects_all
      { name := some "A", email := some "bad", age := some 130 }).2.2 (by decide)
    rw [this]
    decide

/-- C9: error normalization is total: every error value maps to exactly
one envelope, its status is one of 400, 404, 409 and 500 and agrees with
its type, and an error matching none of the known categories maps to
ServerError with status 500 and the original message as detail. -/
theorem c9_handleError_total (e : JsError) :
    ((handleError e).status = 400 ∨ (handleError e).status = 404 ∨
      (handleError e).status = 409 ∨ (handleError e).status = 500)
    ∧ ((handleError e).type = ErrorType.VALIDATION → (handleError e).status = 400)
    ∧ ((handleError e).type = ErrorType.NOT_FOUND → (handleError e).status = 404)
    ∧ ((handleError e).type = ErrorType.DUPLICATE → (handleError e).status = 409)
    ∧ ((handleError e).type = ErrorType.BAD_REQUEST → (handleError e).status = 400)
    ∧ ((handleError e).type = ErrorType.SERVER → (handleError e).status = 500)
    ∧ (e.isMongooseValidationError = false → e.code ≠ some 11000 →
       e.isMongooseCastError = false → e.name ≠ "NotFoundError" →
       e.name ≠ "BadRequestError" → e.name ≠ "ValidationError" →
       handleError e = { type := .SERVER, message := "Error interno del servidor",
                         details := some (.str e.message), status := 500 }) := by
  unfold handleError
  split_ifs with h1 h2 h3 h4 h5 h6 <;> simp_all [ErrorType.value]

/-- Witness for C9 at an unrecognized error value. -/
theorem c9_handleError_total_witness :
    handleError { name := "TypeError", message := "boom" } =
      { type := .SERVER, message := "Error interno del servidor",
        details := some (.str "boom"), status := 500 } :=
  (c9_handleError_total { name := "TypeError", message := "boom" }).2.2.2.2.2.2
    rfl (by decide) rfl (by decide) (by decide) (by decide)

/-- C10: `moveTaskToUser` probes the target user before looking the task
up, so when neither exists it fails with BadRequest naming the missing
user; `updateTask` looks the task up first and reports NotFound naming
the missing task even when its payload references the same missing user. -/
theorem c10_probe_order (db : DB) (taskId userId : String) (now : Nat)
    (hnouser : db.users.any (fun u => u._id == userId) = false)
    (hnotask : findIndexed (fun t => t._id == taskId) db.tasks = none) :
    moveTaskToUser db taskId userId now =
      ⟨.error (AppError.badRequest ("Usuario con ID " ++ userId ++ " no existe")), db⟩
    ∧ updateTask db taskId { user := some userId } now =
      ⟨.error (AppError.notFound s!"Tarea con ID {taskId} no encontrada"), db⟩ := by
  constructor
  · unfold moveTaskToUser
    rw [hnouser]
    rfl
  · unfold updateTask
    rw [hnotask]

/-- Witness for C10 at a store containing neither the task nor the user. -/
theorem c10_probe_order_witness :
    moveTaskToUser dbW "t404" "nobody" 3 =
      ⟨.error (AppError.badRequest "Usuario con ID nobody no existe"), dbW⟩
    ∧ updateTask dbW "t404" { user := some "nobody" } 3 =
      ⟨.error (AppError.notFound "Tarea con ID t404 no encontrada"), dbW⟩ := by
  have := c10_probe_order dbW "t404" "nobody" 3 (by decide) (by decide)
  exact this

/-- The record the in-memory `createUser` stores and returns: defaults,
then the payload fields, then the assigned id and timestamps. -/
def newUserRecord (p : UserPayload) (newId : String) (now : Nat) : UserRec :=
  { _id := newId, name := p.name.getD "", email := p.email.getD "",
    age := p.age, role := p.role.getD "user", active := p.active.getD true,
    createdAt := now, updatedAt := now }

/-- C7: for a valid payload whose email is not yet stored and a fresh id,
`createUser` succeeds and a following `getUserById` on the assigned id
returns exactly the payload extended with the id, the timestamps and the
defaults role := "user" and active := true for fields the payload left
unset (explicitly supplied role and active values are kept). -/
theorem c7_create_then_get (db : DB) (p : UserPayload) (newId : String) (now : Nat)
    (hval : validateUserData p = .ok ())
    (hdup : db.users.any (fun u => some u.email == p.email) = false)
    (hfresh : db.users.find? (fun u => u._id == newId) = none) :
    (createUser db p newId now).out = .ok (newUserRecord p newId now)
    ∧ (getUserById (createUser db p newId now).db newId).out =
        .ok (newUserRecord p newId now) := by
  have hc : createUser db p newId now =
      ⟨.ok (newUserRecord p newId now),
       { db with users := db.users ++ [newUserRecord p newId now] }⟩ := by
    unfold createUser
    rw [hval, hdup]
    rfl
  rw [hc]
  refine ⟨rfl, ?_⟩
  show (getUserById { db with users := db.users ++ [newUserRecord p newId now] } newId).out =
    .ok (newUserRecord p newId now)
  unfold getUserById
  rw [show ({ db with users := db.users ++ [newUserRecord p newId now] } : DB).users =
    db.users ++ [newUserRecord p newId now] from rfl]
  rw [find?_append_none _ hfresh]
  simp [List.find?, newUserRecord]

/-- Witness for C7: creating Ann Lee in an empty store and reading the
record back. -/
theorem c7_create_then_get_witness :
    (createUser {} { name := some "Ann Lee", email := some "ann@example.com" } "u1" 0).out =
      .ok uAnn
    ∧ (getUserById
        (createUser {} { name := some "Ann Lee", email := some "ann@example.com" } "u1" 0).db
        "u1").out = .ok uAnn := by
  have := c7_create_then_get {} { name := some "Ann Lee", email := some "ann@example.com" }
    "u1" 0 (by decide) (by decide) (by decide)
  exact this

/-- C2 counterexample: a partial payload containing only a valid email and
no name is rejected by the update validator with a violation for the
absent name field, and a non-empty-partial `updateUser` throws it. -/
theorem c2_counterexample :
    userViolations { email := some "a@b.co" } = ["El nombre es obligatorio"]
    ∧ (updateUser dbW "u1" { email := some "x@y.co" } 5).out =
        .error (AppError.validation "Error de validación"
          ["El nombre es obligatorio"]) := by
  constructor <;> decide

/-- C2 amended: on update a non-empty partial is validated by the same
full validator as create, so name and email are required even when absent
from the partial; only the optional fields age, role and active are free
of violations when absent; an empty partial skips validation entirely, so
an empty-partial `updateUser` can fail only with NotFound. -/
theorem c2_partial_validation_amended (p : UserPayload) (db : DB) (id : String)
    (now : Nat) (hage : p.age = none) (hrole : p.role = none)
    (hact : p.active = none) :
    userViolations p = nameViolations p.name ++ emailViolations p.email
    ∧ nameViolations none = ["El nombre es obligatorio"]
    ∧ emailViolations none = ["El email es obligatorio"]
    ∧ (∀ e, (updateUser db id {} now).out = .error e →
        e = AppError.notFound s!"Usuario con ID {id} no encontrado") := by
  refine ⟨?_, rfl, rfl, ?_⟩
  · rw [userViolations_decomp, hage, hrole, hact]
    simp [ageViolations, roleViolations, activeViolations]
  · intro e he
    rcases hf : findIndexed (fun u => u._id == id) db.users with _ | ⟨i, stored⟩
    · unfold updateUser at he
      rw [hf] at he
      simp [UserPayload.isEmpty] at he
      exact he.symm
    · unfold updateUser at he
      rw [hf] at he
      simp [UserPayload.isEmpty, jsTruthy] at he

/-- Witness for C2 at a concrete partial carrying only name and email. -/
theorem c2_partial_validation_amended_witness :
    userViolations { name := some "Bo Li", email := some "bo@x.io" } =
      nameViolations (some "Bo Li") ++ emailViolations (some "bo@x.io") :=
  (c2_partial_validation_amended { name := some "Bo Li", email := some "bo@x.io" }
    {} "zz" 5 rfl rfl rfl).1

/-- C4 counterexample: an empty-partial `updateUser` on an existing user
succeeds but refreshes `updatedAt`: the stored timestamp 0 becomes the
current time 5, so not every field is left unchanged. -/
theorem c4_counterexample :
    (updateUser dbW "u1" {} 5).out = .ok { uAnn with updatedAt := 5 }
    ∧ ¬ (updateUser dbW "u1" {} 5).out = .ok uAnn := by
  constructor <;> decide

/-- C4 amended: for an existing user id, `updateUser` with an empty
partial succeeds and returns the stored user with every field unchanged
except `updatedAt`, which is refreshed to the current time; the store is
rewritten at the same position with that refreshed record. -/
theorem c4_empty_update_amended (db : DB) (id : String) (now : Nat) (i : Nat)
    (u : UserRec)
    (h : findIndexed (fun v => v._id == id) db.users = some (i, u)) :
    updateUser db id {} now =
      ⟨.ok { u with updatedAt := now },
       { db with users := db.users.set i { u with updatedAt := now } }⟩ := by
  unfold updateUser
  rw [h]
  rfl

/-- Witness for C4 at the sample store. -/
theorem c4_empty_update_amended_witness :
    updateUser dbW "u1" {} 5 =
      ⟨.ok { uAnn with updatedAt := 5 },
       { dbW with users := dbW.users.set 0 { uAnn with updatedAt := 5 } }⟩ :=
  c4_empty_update_amended dbW "u1" 5 0 uAnn (by decide)

/-- C5 counterexample: with a dangling task reference, `getTaskById`
returns the raw unresolved id, but `updateTaskStatus` on the same task
returns the task with its user field undefined, not the raw id. -/
theorem c5_counterexample :
    (getTaskById dbGhost "t9").out = .ok (tGhost.withUser (.raw "ghost"))
    ∧ (updateTaskStatus dbGhost "t9" "completed" 5).out =
        .ok (TaskRec.withUser { tGhost with status := "completed", updatedAt := 5 }
          PopUser.undefinedRef)
    ∧ PopUser.undefinedRef ≠ PopUser.raw "ghost" := by
  refine ⟨?_, ?_, ?_⟩ <;> decide

/-- C5 amended: in fallback mode a returned Task's user reference is
resolved by an in-process join and no error is raised when it does not
resolve, but the unresolved fallback differs by operation: `getTaskById`
substitutes the User record or falls back to the raw id, while
`updateTaskStatus` substitutes the User record or leaves the user field
undefined. -/
theorem c5_populate_amended (db : DB) (id : String) (now : Nat) (i : Nat)
    (t : TaskRec)
    (h : findIndexed (fun x => x._id == id) db.tasks = some (i, t)) :
    (∀ u, db.users.find? (fun v => v._id == t.user) = some u →
      (getTaskById db id).out = .ok (t.withUser (.resolved u))
      ∧ (updateTaskStatus db id "completed" now).out =
          .ok (TaskRec.withUser { t with status := "completed", updatedAt := now }
            (.resolved u)))
    ∧ (db.users.find? (fun v => v._id == t.user) = none →
      (getTaskById db id).out = .ok (t.withUser (.raw t.user))
      ∧ (updateTaskStatus db id "completed" now).out =
          .ok (TaskRec.withUser { t with status := "completed", updatedAt := now }
            PopUser.undefinedRef)) := by
  have hf : db.tasks.find? (fun x => x._id == id) = some t := find?_of_findIndexed h
  constructor
  · intro u hu
    constructor
    · unfold getTaskById
      rw [hf]
      simp [popLookupRaw, hu]
    · unfold updateTaskStatus
      rw [h]
      simp [popLookupUndefined, hu, taskStatusValues]
  · intro hnone
    constructor
    · unfold getTaskById
      rw [hf]
      simp [popLookupRaw, hnone]
    · unfold updateTaskStatus
      rw [h]
      simp [popLookupUndefined, hnone, taskStatusValues]

/-- Witness for C5: the resolved case at the sample store. -/
theorem c5_populate_amended_witness :
    (getTaskById dbW "t1").out = .ok (tReport.withUser (.resolved uAnn))
    ∧ (updateTaskStatus dbW "t1" "completed" 7).out =
        .ok (TaskRec.withUser { tReport with status := "completed", updatedAt := 7 }
          (.resolved uAnn)) :=
  (c5_populate_amended dbW "t1" 7 0 tReport (by decide)).1 uAnn (by decide)

/-- C1 counterexample: two `createUser` calls whose emails are equal after
lowercase normalization but differ in case both succeed in fallback mode,
because the in-memory duplicate probe compares emails by exact string
equality and never normalizes case. -/
theorem c1_counterexample :
    lowerStr "A@b.co" = lowerStr "a@b.co"
    ∧ opSucceeded
        (createUser {} { name := some "Ann Lee", email := some "A@b.co" } "u1" 0).out = true
    ∧ opSucceeded
        (createUser
          (createUser {} { name := some "Ann Lee", email := some "A@b.co" } "u1" 0).db
          { name := some "Ben Ray", email := some "a@b.co" } "u2" 1).out = true := by
  refine ⟨?_, ?_, ?_⟩ <;> decide

/-- C1 amended: in fallback mode duplicate detection is by exact string
equality with no case normalization: a validated `createUser` whose email
exactly matches a stored email fails with the duplicate error (code
11000, mapped to DuplicateError) and leaves the store unchanged, and the
exact-email uniqueness invariant is preserved by every successful
`createUser` and `updateUser`; emails differing only in case are not
detected as duplicates. -/
theorem c1_email_uniqueness_amended (db : DB) (p : UserPayload)
    (newId id : String) (now : Nat) (hdist : emailsDistinct db) :
    (validateUserData p = .ok () →
      db.users.any (fun u => some u.email == p.email) = true →
      createUser db p newId now =
        ⟨.error { name := "Error", message := "Email ya registrado",
                  code := some 11000,
                  keyValue := some ("email", p.email.getD "") }, db⟩)
    ∧ (∀ r db', createUser db p newId now = ⟨.ok r, db'⟩ → emailsDistinct db')
    ∧ (∀ r db', updateUser db id p now = ⟨.ok r, db'⟩ → emailsDistinct db') := by
  refine ⟨?_, ?_, ?_⟩
  · intro hval hany
    unfold createUser
    rw [hval, hany]
    rfl
  · intro r db' h
    obtain ⟨hval, hany, hr, hdb⟩ := createUser_ok_state h
    obtain ⟨e, he, hne, hre⟩ := email_of_validate_ok hval
    subst hdb
    unfold emailsDistinct at hdist ⊢
    simp only [List.map_append, List.map_cons, List.map_nil]
    rw [List.nodup_append]
    refine ⟨hdist, List.nodup_singleton _, ?_⟩
    intro a ha hb
    have hae : a = e := by
      have : a = r.email := by simpa using hb
      rw [this, hr]
      simp [he]
    obtain ⟨u, hu, hua⟩ := List.mem_map.mp ha
    have : db.users.any (fun v => some v.email == p.email) = true :=
      List.any_eq_true.mpr ⟨u, hu, by rw [he, hua, hae]; simp⟩
    rw [this] at hany
    simp at hany
  · intro r db' h
    obtain ⟨i, stored, hfind, hr, hdb, hvalgate, hdupgate⟩ := updateUser_ok_state h
    subst hdb
    unfold emailsDistinct at hdist ⊢
    by_cases ht : jsTruthy p.email = true
    · obtain ⟨e, he, hne⟩ : ∃ e, p.email = some e ∧ e ≠ "" := by
        cases hp : p.email with
        | none => rw [hp] at ht; simp [jsTruthy] at ht
        | some s =>
          refine ⟨s, rfl, ?_⟩
          rw [hp] at ht
          simpa [jsTruthy] using ht
      have hdup := hdupgate ht
      have hre : r.email = e := by
        rw [hr]
        simp [applyUserPatch, he]
      have hms : (db.users.set i r).map (fun u => u.email) =
          (db.users.map (fun u => u.email)).set i e := by
        rw [List.map_set, hre]
      rw [hms]
      apply nodup_set_of_ne hdist
      intro j b hjb hji hbe
      obtain ⟨u, hu, hua⟩ : ∃ u, db.users[j]? = some u ∧ u.email = b := by
        rw [List.getElem?_map] at hjb
        obtain ⟨u, hu1, hu2⟩ := Option.map_eq_some'.mp hjb
        exact ⟨u, hu1, hu2⟩
      have : db.users.enum.any
          (fun q => (some q.2.email == p.email) && (q.1 != i)) = true := by
        apply List.any_eq_true.mpr
        refine ⟨(j, u), List.mem_enum_iff_getElem?.mpr ?_, ?_⟩
        · simpa using hu
        · simp [he, hua, hbe, hji]
      rw [this] at hdup
      simp at hdup
    · cases hp : p.email with
      | some s =>
        have hs : s = "" := by
          rw [hp] at ht
          by_contra hne
          exact ht (by simp [jsTruthy, hne])
        have hvne : p.isEmpty = false := by
          unfold UserPayload.isEmpty
          rw [hp]
          simp
        have hval := hvalgate hvne
        obtain ⟨e, he, hne', _⟩ := email_of_validate_ok hval
        rw [hp] at he
        cases he
        exact absurd hs hne'
      | none =>
        have hre : r.email = stored.email := by
          rw [hr]
          simp [applyUserPatch, hp]
        have hst : db.users[i]? = some stored := (findIndexed_getElem? hfind).1
        have hms : (db.users.set i r).map (fun u => u.email) =
            db.users.map (fun u => u.email) := by
          rw [List.map_set, hre]
          exact map_set_self hst
        rw [hms]
        exact hdist

/-- Witness for C1: an exact duplicate email is rejected with the
duplicate error at the sample store. -/
theorem c1_email_uniqueness_amended_witness :
    createUser dbW { name := some "Zed Qi", email := some "ann@example.com" } "u9" 4 =
      ⟨.error { name := "Error", message := "Email ya registrado",
                code := some 11000,
                keyValue := some ("email", "ann@example.com") }, dbW⟩ := by
  have := (c1_email_uniqueness_amended dbW
    { name := some "Zed Qi", email := some "ann@example.com" } "u9" "x" 4
    (by unfold emailsDistinct; decide)).1 (by decide) (by decide)
  simpa using this
